import Mathlib

/-!
Verification development for the sandbox lifecycle and interactive-shell
subsystem of the cloud-it repository.

The embedding covers three components, translated from the TypeScript source:

* the attach protocol client `dockerAttach`
  (backend `modules/terminal`): byte-level parsing of the HTTP upgrade
  response delivered across fragmented socket reads;
* the sandbox lifecycle controller `ContainerManager`
  (backend `services/docker`): getOrCreateContainer, stopContainer,
  removeContainer, getStatus, getPreview, markUsed, the per-project
  creation-lock table, and project-identifier / workspace-path validation;
* the terminal session registry (backend `modules/terminal`): the
  websocket `open` handler with its session caps, `cleanupSession`, and
  `closeForShellExit`.

Bytes are modelled as `Nat`, strings on the wire as `List Nat`,
project identifiers and filesystem paths as `List Char`.
-/

namespace CloudIt

/-! ## Attach protocol client (`dockerAttach`)

The source accumulates each socket `data` chunk into `headerBuf`, searches
for the first occurrence of the `\r\n\r\n` header terminator, and on a 101
status re-queues every byte past the terminator (`socket.unshift`) ahead of
subsequent reads before handing the socket to the consumer. -/

/-- The header/body delimiter `\r\n\r\n` as bytes. -/
def headerTerm : List Nat := [13, 10, 13, 10]

/-- Does the list begin with the four-byte header terminator? -/
def isTermAt (l : List Nat) : Bool := l.take 4 = headerTerm

/-- Index of the first occurrence of the header terminator
(`headerBuf.indexOf` in the source); `none` when absent. -/
def firstTerm : List Nat → Option Nat
  | [] => none
  | x :: xs => if isTermAt (x :: xs) then some 0 else (firstTerm xs).map (· + 1)

/-- Does the list begin with `\r\n`? -/
def isCRLFAt (l : List Nat) : Bool := l.take 2 = [13, 10]

/-- Does the list contain `\r\n` anywhere? -/
def hasCRLF : List Nat → Bool
  | [] => false
  | x :: xs => isCRLFAt (x :: xs) || hasCRLF xs

/-- Bytes before the first `\r\n` (`headerBuf.split('\r\n')[0]`). -/
def firstLine : List Nat → List Nat
  | [] => []
  | x :: xs => if isCRLFAt (x :: xs) then [] else x :: firstLine xs

/-- Split on the space byte 32, keeping empty fields (JS `split(' ')`). -/
def splitSpace : List Nat → List (List Nat)
  | [] => [[]]
  | x :: xs =>
    if x = 32 then [] :: splitSpace xs
    else
      match splitSpace xs with
      | [] => [[x]]
      | s :: ss => (x :: s) :: ss

/-- Is the byte an ASCII decimal digit? -/
def isDigitByte (b : Nat) : Bool := 48 ≤ b && b ≤ 57

/-- JS `parseInt` on the status token: parse the leading run of decimal
digits; `none` models `NaN` (no digits, or a missing token). -/
def parseIntJS (l : List Nat) : Option Nat :=
  let ds := l.takeWhile isDigitByte
  if ds.isEmpty then none
  else some (ds.foldl (fun a c => a * 10 + (c - 48)) 0)

/-- Status parse `parseInt(headerBuf.split('\r\n')[0].split(' ')[1])` from the source. -/
def parseStatus (buf : List Nat) : Option Nat :=
  match (splitSpace (firstLine buf)).get? 1 with
  | none => none
  | some tok => parseIntJS tok

/-- State of one `dockerAttach` call.  `outcome` is the promise:
`none` while pending, `some true` once resolved with the upgraded socket,
`some false` once rejected.  `delivered` is the sequence of bytes the
stream consumer receives (the re-queued leftover first, then every byte
arriving after the upgrade). -/
structure AttachState where
  headerBuf : List Nat
  headerDone : Bool
  resolvedFlag : Bool
  outcome : Option Bool
  delivered : List Nat
deriving Repr, DecidableEq

/-- The events the source registers callbacks for on the raw socket:
`data`, `error` and `close`.  `dockerAttach` registers no timer. -/
inductive SockEvent
  | data (chunk : List Nat)
  | errored
  | closed
deriving Repr, DecidableEq

/-- A promise settles at most once. -/
def settleOnce (o : Option Bool) (b : Bool) : Option Bool :=
  match o with
  | none => some b
  | some v => some v

/-- One socket event applied to the attach state, mirroring the three
handlers of `dockerAttach`: the `data` handler accumulates into
`headerBuf` until the terminator is found, then either resolves (status
101, re-queuing the leftover bytes) or rejects; after the upgrade the
`data` listener is removed and bytes flow to the consumer; `error` and
`close` reject when not yet resolved. -/
def attachStep (st : AttachState) (e : SockEvent) : AttachState :=
  match e with
  | .errored => if st.resolvedFlag then st else { st with outcome := settleOnce st.outcome false }
  | .closed => if st.resolvedFlag then st else { st with outcome := settleOnce st.outcome false }
  | .data chunk =>
    if st.headerDone then
      if st.outcome = some true then { st with delivered := st.delivered ++ chunk } else st
    else
      let buf := st.headerBuf ++ chunk
      match firstTerm buf with
      | none => { st with headerBuf := buf }
      | some i =>
        if parseStatus buf = some 101 then
          { headerBuf := buf, headerDone := true, resolvedFlag := true,
            outcome := settleOnce st.outcome true,
            delivered := st.delivered ++ buf.drop (i + 4) }
        else
          { st with headerBuf := buf, headerDone := true,
                    outcome := settleOnce st.outcome false }

/-- Initial state of a `dockerAttach` call. -/
def attachInit : AttachState :=
  { headerBuf := [], headerDone := false, resolvedFlag := false,
    outcome := none, delivered := [] }

/-- Run `dockerAttach` over a sequence of socket events. -/
def runAttach (events : List SockEvent) : AttachState :=
  events.foldl attachStep attachInit

/-! ### Properties of the terminator search -/

lemma isTermAt_iff {l : List Nat} : isTermAt l = true ↔ l.take 4 = headerTerm := by
  simp [isTermAt]

lemma isTermAt_length {l : List Nat} (h : isTermAt l = true) : 4 ≤ l.length := by
  rw [isTermAt_iff] at h
  have h4 : (l.take 4).length = 4 := by rw [h]; rfl
  rw [List.length_take] at h4
  rcases Nat.le_total 4 l.length with h' | h'
  · exact h'
  · rw [Nat.min_eq_right h'] at h4
    omega

lemma isTermAt_take {l : List Nat} {n j : Nat} (h : j + 4 ≤ n) :
    isTermAt ((l.take n).drop j) = isTermAt (l.drop j) := by
  have e : ((l.take n).drop j).take 4 = (l.drop j).take 4 := by
    rw [List.drop_take, List.take_take, Nat.min_eq_left (by omega)]
  simp [isTermAt, e]

lemma firstTerm_cons (x : Nat) (xs : List Nat) :
    firstTerm (x :: xs) =
      if isTermAt (x :: xs) then some 0 else (firstTerm xs).map (· + 1) := rfl

lemma firstTerm_cons_none {x : Nat} {xs : List Nat} :
    firstTerm (x :: xs) = none ↔ isTermAt (x :: xs) = false ∧ firstTerm xs = none := by
  rw [firstTerm_cons]
  cases h : isTermAt (x :: xs)
  · rw [if_neg (by simp)]
    simp [h, Option.map_eq_none']
  · rw [if_pos rfl]
    simp [h]

lemma firstTerm_eq_none_iff {l : List Nat} :
    firstTerm l = none ↔ ∀ j, isTermAt (l.drop j) = false := by
  induction l with
  | nil =>
    constructor
    · intro _ j
      simp [isTermAt, headerTerm]
    · intro _
      rfl
  | cons x xs ih =>
    rw [firstTerm_cons_none, ih]
    constructor
    · rintro ⟨h0, h1⟩ j
      cases j with
      | zero => simpa using h0
      | succ j => simpa using h1 j
    · intro h
      exact ⟨by simpa using h 0, fun j => by simpa using h (j + 1)⟩

lemma firstTerm_cons_some {x : Nat} {xs : List Nat} {i : Nat} :
    firstTerm (x :: xs) = some i ↔
      (isTermAt (x :: xs) = true ∧ i = 0) ∨
      (isTermAt (x :: xs) = false ∧ ∃ j, firstTerm xs = some j ∧ i = j + 1) := by
  rw [firstTerm_cons]
  cases h : isTermAt (x :: xs)
  · rw [if_neg (by simp)]
    simp only [h, Option.map_eq_some', Bool.false_eq_true, false_and, false_or,
      eq_self_iff_true, true_and]
    constructor
    · rintro ⟨j, hj, hji⟩
      exact ⟨j, hj, hji.symm⟩
    · rintro ⟨j, hj, hji⟩
      exact ⟨j, hj, hji.symm⟩
  · rw [if_pos rfl]
    simp only [h, eq_self_iff_true, true_and, Bool.true_eq_false, false_and, or_false,
      Option.some.injEq]
    exact eq_comm

lemma firstTerm_eq_some_iff {l : List Nat} {i : Nat} :
    firstTerm l = some i ↔
      isTermAt (l.drop i) = true ∧ ∀ j, j < i → isTermAt (l.drop j) = false := by
  induction l generalizing i with
  | nil =>
    constructor
    · intro h
      simp [firstTerm] at h
    · rintro ⟨h, _⟩
      simp [isTermAt, headerTerm] at h
  | cons x xs ih =>
    rw [firstTerm_cons_some]
    constructor
    · rintro (⟨ht, rfl⟩ | ⟨hf, j, hj, rfl⟩)
      · exact ⟨by simpa using ht, fun j hj => absurd hj (Nat.not_lt_zero j)⟩
      · obtain ⟨h1, h2⟩ := ih.mp hj
        refine ⟨by simpa using h1, fun k hk => ?_⟩
        cases k with
        | zero => simpa using hf
        | succ k => simpa using h2 k (by omega)
    · rintro ⟨h1, h2⟩
      cases hx : isTermAt (x :: xs)
      · right
        refine ⟨rfl, ?_⟩
        cases i with
        | zero =>
          rw [List.drop_zero, hx] at h1
          cases h1
        | succ i =>
          exact ⟨i, ih.mpr ⟨by simpa using h1,
            fun j hj => by simpa using h2 (j + 1) (by omega)⟩, rfl⟩
      · left
        refine ⟨rfl, ?_⟩
        cases i with
        | zero => rfl
        | succ i =>
          have := h2 0 (Nat.succ_pos i)
          rw [List.drop_zero, hx] at this
          cases this

lemma firstTerm_take_none {l : List Nat} {h n : Nat}
    (hl : firstTerm l = some h) (hn : n ≤ h + 3) : firstTerm (l.take n) = none := by
  rw [firstTerm_eq_none_iff]
  intro j
  cases hc : isTermAt ((l.take n).drop j)
  · rfl
  · exfalso
    have hlen := isTermAt_length hc
    rw [List.length_drop, List.length_take] at hlen
    by_cases hj : j + 4 ≤ n
    · have heq := isTermAt_take (l := l) (n := n) (j := j) hj
      rw [hc] at heq
      have hmin := (firstTerm_eq_some_iff.mp hl).2 j (by omega)
      rw [← heq] at hmin
      cases hmin
    · have hmin : n ⊓ l.length ≤ n := Nat.min_le_left _ _
      omega

lemma firstTerm_take_some {l : List Nat} {h n : Nat}
    (hl : firstTerm l = some h) (hn : h + 4 ≤ n) : firstTerm (l.take n) = some h := by
  obtain ⟨h1, h2⟩ := firstTerm_eq_some_iff.mp hl
  rw [firstTerm_eq_some_iff]
  refine ⟨?_, fun j hj => ?_⟩
  · rw [isTermAt_take (by omega)]
    exact h1
  · rw [isTermAt_take (by omega)]
    exact h2 j hj

lemma take_append_chunk {L c rest : List Nat} {n : Nat}
    (h : c ++ rest = L.drop n) : L.take n ++ c = L.take (n + c.length) := by
  rw [List.take_add]
  congr 1
  rw [← h]
  exact (List.take_left c rest).symm

/-! ### Stability of the status-line parse under extra bytes -/

lemma isCRLFAt_append {A B : List Nat} (h2 : 2 ≤ A.length) :
    isCRLFAt (A ++ B) = isCRLFAt A := by
  unfold isCRLFAt
  rw [List.take_append_of_le_length h2]

lemma isCRLFAt_length {l : List Nat} (h : isCRLFAt l = true) : 2 ≤ l.length := by
  unfold isCRLFAt at h
  simp only [decide_eq_true_eq] at h
  have h2 : (l.take 2).length = 2 := by rw [h]; rfl
  rw [List.length_take] at h2
  rcases Nat.le_total 2 l.length with h' | h'
  · exact h'
  · rw [Nat.min_eq_right h'] at h2
    omega

lemma hasCRLF_ne_nil {l : List Nat} (h : hasCRLF l = true) : l ≠ [] := by
  intro he
  subst he
  simp [hasCRLF] at h

lemma firstLine_append {A B : List Nat} (h : hasCRLF A = true) :
    firstLine (A ++ B) = firstLine A := by
  induction A with
  | nil => simp [hasCRLF] at h
  | cons x xs ih =>
    unfold hasCRLF at h
    rw [List.cons_append]
    cases hc : isCRLFAt (x :: xs)
    · rw [hc, Bool.false_or] at h
      have hne : xs ≠ [] := hasCRLF_ne_nil h
      have hlen : 2 ≤ (x :: xs).length := by
        cases xs with
        | nil => exact absurd rfl hne
        | cons y ys => simp
      have hap : isCRLFAt (x :: (xs ++ B)) = isCRLFAt (x :: xs) := by
        rw [show x :: (xs ++ B) = (x :: xs) ++ B from rfl]
        exact isCRLFAt_append hlen
      unfold firstLine
      rw [hap, hc]
      simp only [Bool.false_eq_true, if_false]
      rw [ih h]
    · have hlen := isCRLFAt_length hc
      have hap : isCRLFAt (x :: (xs ++ B)) = isCRLFAt (x :: xs) := by
        rw [show x :: (xs ++ B) = (x :: xs) ++ B from rfl]
        exact isCRLFAt_append hlen
      unfold firstLine
      rw [hap, hc]
      simp

lemma hasCRLF_cons (x : Nat) (xs : List Nat) :
    hasCRLF (x :: xs) = (isCRLFAt (x :: xs) || hasCRLF xs) := rfl

lemma hasCRLF_of_term (A B : List Nat) : hasCRLF (A ++ headerTerm ++ B) = true := by
  induction A with
  | nil =>
    show hasCRLF (headerTerm ++ B) = true
    rw [show headerTerm ++ B = 13 :: 10 :: 13 :: 10 :: B from rfl, hasCRLF_cons]
    simp [isCRLFAt]
  | cons x xs ih =>
    show hasCRLF (x :: (xs ++ headerTerm ++ B)) = true
    rw [hasCRLF_cons, ih]
    simp

lemma parseStatus_stable (hd X : List Nat) :
    parseStatus (hd ++ headerTerm ++ X) = parseStatus (hd ++ headerTerm) := by
  unfold parseStatus
  have h : hasCRLF (hd ++ headerTerm) = true := by
    have := hasCRLF_of_term hd []
    simpa using this
  rw [show hd ++ headerTerm ++ X = (hd ++ headerTerm) ++ X from rfl]
  rw [firstLine_append h]

/-! ### The replay property of the attach parser -/

lemma foldl_attach_upgraded (chunks : List (List Nat)) (st : AttachState)
    (h1 : st.headerDone = true) (h2 : st.outcome = some true) :
    List.foldl attachStep st (chunks.map SockEvent.data) =
      { st with delivered := st.delivered ++ chunks.join } := by
  induction chunks generalizing st with
  | nil => simp
  | cons c cs ih =>
    simp only [List.map_cons, List.foldl_cons, List.join_cons]
    rw [show attachStep st (.data c) = { st with delivered := st.delivered ++ c } from by
      simp [attachStep, h1, h2]]
    rw [ih _ (by simp [h1]) (by simp [h2])]
    simp

lemma attachStep_data_none {hb c d : List Nat} (h : firstTerm (hb ++ c) = none) :
    attachStep ⟨hb, false, false, none, d⟩ (.data c) = ⟨hb ++ c, false, false, none, d⟩ := by
  simp [attachStep, h]

lemma attachStep_data_found {hb c d : List Nat} {i : Nat}
    (h : firstTerm (hb ++ c) = some i) (hs : parseStatus (hb ++ c) = some 101) :
    attachStep ⟨hb, false, false, none, d⟩ (.data c) =
      ⟨hb ++ c, true, true, some true, d ++ (hb ++ c).drop (i + 4)⟩ := by
  simp [attachStep, h, hs, settleOnce]

lemma foldl_attach_parsing (hd body : List Nat)
    (hfirst : firstTerm (hd ++ headerTerm ++ body) = some hd.length)
    (hstat : parseStatus (hd ++ headerTerm) = some 101) :
    ∀ (chunks : List (List Nat)) (n : Nat),
      chunks.join = (hd ++ headerTerm ++ body).drop n →
      n ≤ hd.length + 3 →
      ((List.foldl attachStep
        ⟨(hd ++ headerTerm ++ body).take n, false, false, none, []⟩
        (chunks.map SockEvent.data)).delivered = body ∧
       (List.foldl attachStep
        ⟨(hd ++ headerTerm ++ body).take n, false, false, none, []⟩
        (chunks.map SockEvent.data)).outcome = some true) := by
  intro chunks
  induction chunks with
  | nil =>
    intro n hjoin hn
    exfalso
    have hlen : (0 : Nat) = (hd ++ headerTerm ++ body).length - n := by
      have := congrArg List.length hjoin
      simpa [List.length_drop] using this
    have hL : (hd ++ headerTerm ++ body).length = hd.length + 4 + body.length := by
      simp [headerTerm]
      omega
    omega
  | cons c cs ih =>
    intro n hjoin hn
    have hcc : c ++ cs.join = (hd ++ headerTerm ++ body).drop n := by
      simpa using hjoin
    have hbuf : (hd ++ headerTerm ++ body).take n ++ c =
        (hd ++ headerTerm ++ body).take (n + c.length) := take_append_chunk hcc
    have hrest : cs.join = (hd ++ headerTerm ++ body).drop (n + c.length) := by
      have := congrArg (List.drop c.length) hcc
      simpa [List.drop_drop, Nat.add_comm] using this
    have hAlen : (hd ++ headerTerm).length = hd.length + 4 := by simp [headerTerm]
    simp only [List.map_cons, List.foldl_cons]
    by_cases hm : n + c.length ≤ hd.length + 3
    · have hnone : firstTerm ((hd ++ headerTerm ++ body).take (n + c.length)) = none :=
        firstTerm_take_none hfirst hm
      rw [attachStep_data_none (by rw [hbuf]; exact hnone)]
      rw [hbuf]
      exact ih (n + c.length) hrest hm
    · have hm4 : hd.length + 4 ≤ n + c.length := by omega
      obtain ⟨k, hk⟩ : ∃ k, n + c.length = (hd ++ headerTerm).length + k :=
        ⟨n + c.length - (hd.length + 4), by rw [hAlen]; omega⟩
      have hsome : firstTerm ((hd ++ headerTerm ++ body).take (n + c.length)) = some hd.length :=
        firstTerm_take_some hfirst hm4
      have hsplit : (hd ++ headerTerm ++ body).take (n + c.length) =
          (hd ++ headerTerm) ++ body.take k := by
        rw [hk]
        exact List.take_append k
      have hst : parseStatus ((hd ++ headerTerm ++ body).take (n + c.length)) = some 101 := by
        rw [hsplit, parseStatus_stable]
        exact hstat
      have hleft : ((hd ++ headerTerm ++ body).take (n + c.length)).drop (hd.length + 4) =
          body.take k := by
        rw [hsplit, ← hAlen, List.drop_left]
      rw [attachStep_data_found (i := hd.length)
        (by rw [hbuf]; exact hsome) (by rw [hbuf]; exact hst)]
      rw [hbuf, hleft]
      rw [foldl_attach_upgraded cs _ rfl rfl]
      refine ⟨?_, rfl⟩
      show List.nil ++ body.take k ++ cs.join = body
      rw [List.nil_append, hrest]
      rw [show (hd ++ headerTerm ++ body).drop (n + c.length) = body.drop k from by
        rw [hk]
        exact List.drop_append k]
      exact List.take_append_drop k body

/-- C2: for every fragmentation of the engine's upgrade response into
successive socket reads — including fragmentations whose boundary splits
the `\r\n\r\n` terminator — the `dockerAttach` parser detects the
terminator; on a 101 status every byte that arrived past the terminator is
re-queued ahead of subsequent reads, so the bytes delivered to the stream
consumer are exactly the post-header bytes, none dropped or duplicated. -/
theorem dockerAttach_fragmented_header_replay
    (hd body : List Nat) (chunks : List (List Nat))
    (hjoin : chunks.join = hd ++ headerTerm ++ body)
    (hfirst : firstTerm (hd ++ headerTerm ++ body) = some hd.length)
    (hstat : parseStatus (hd ++ headerTerm) = some 101) :
    (runAttach (chunks.map SockEvent.data)).delivered = body ∧
    (runAttach (chunks.map SockEvent.data)).outcome = some true := by
  have h := foldl_attach_parsing hd body hfirst hstat chunks 0 (by simpa using hjoin)
    (by omega)
  simpa [runAttach, attachInit] using h

/-- An HTTP 101 status line used by concrete witnesses. -/
def witHd : List Nat :=
  [72, 84, 84, 80, 47, 49, 46, 49, 32, 49, 48, 49, 32, 85, 80, 71, 82, 65, 68, 69, 68]

/-- Witness for C2: a concrete response whose fragmentation splits the
header terminator between the first and second read. -/
theorem dockerAttach_fragmented_header_replay_witness :
    ([witHd ++ [13, 10, 13], [10, 65], [66]] : List (List Nat)).join =
        witHd ++ headerTerm ++ [65, 66] ∧
    firstTerm (witHd ++ headerTerm ++ [65, 66]) = some witHd.length ∧
    parseStatus (witHd ++ headerTerm) = some 101 ∧
    (runAttach (([witHd ++ [13, 10, 13], [10, 65], [66]] : List (List Nat)).map
        SockEvent.data)).delivered = [65, 66] := by
  refine ⟨by decide, by decide, by decide, ?_⟩
  exact (dockerAttach_fragmented_header_replay witHd [65, 66]
    [witHd ++ [13, 10, 13], [10, 65], [66]] (by decide) (by decide) (by decide)).1

/-! ## Association-list maps

The source keeps its shared tables (`lastUsedMap`, `creationLocks`,
`sessionMap`, `projectSessions`, `userSessions`) in JS `Map`s; here they
are association lists with `Map.get` / `Map.set` / `Map.delete`. -/

def lookupA {κ β : Type} [DecidableEq κ] : List (κ × β) → κ → Option β
  | [], _ => none
  | (a, b) :: rest, k => if a = k then some b else lookupA rest k

def eraseA {κ β : Type} [DecidableEq κ] : List (κ × β) → κ → List (κ × β)
  | [], _ => []
  | (a, b) :: rest, k => if a = k then eraseA rest k else (a, b) :: eraseA rest k

def setA {κ β : Type} [DecidableEq κ] (l : List (κ × β)) (k : κ) (v : β) : List (κ × β) :=
  (k, v) :: eraseA l k

lemma lookupA_eraseA_self {κ β : Type} [DecidableEq κ] (l : List (κ × β)) (k : κ) :
    lookupA (eraseA l k) k = none := by
  induction l with
  | nil => rfl
  | cons p rest ih =>
    obtain ⟨a, b⟩ := p
    by_cases h : a = k
    · simp [eraseA, h, ih]
    · simp [eraseA, h, lookupA, ih]

lemma lookupA_eraseA_ne {κ β : Type} [DecidableEq κ] (l : List (κ × β)) (k k' : κ)
    (h : k' ≠ k) : lookupA (eraseA l k) k' = lookupA l k' := by
  induction l with
  | nil => rfl
  | cons p rest ih =>
    obtain ⟨a, b⟩ := p
    by_cases ha : a = k
    · subst ha
      simp [eraseA, lookupA, Ne.symm h, ih]
    · by_cases hk : a = k'
      · simp [eraseA, ha, lookupA, hk, h]
      · simp [eraseA, ha, lookupA, hk, ih]

lemma lookupA_setA_self {κ β : Type} [DecidableEq κ] (l : List (κ × β)) (k : κ) (v : β) :
    lookupA (setA l k v) k = some v := by
  simp [setA, lookupA]

lemma lookupA_setA_ne {κ β : Type} [DecidableEq κ] (l : List (κ × β)) (k k' : κ) (v : β)
    (h : k' ≠ k) : lookupA (setA l k v) k' = lookupA l k' := by
  simp only [setA, lookupA]
  rw [if_neg (Ne.symm h)]
  exact lookupA_eraseA_ne l k k' h

/-! ## Project-identifier validation (`assertSafeProjectId`)

The source checks the identifier against the strict UUID-v4 regular
expression (case-insensitive hex, literal version digit 4, variant in
[89ab]) before it is used in any path or sandbox name. -/

def isHexDigit (c : Char) : Bool :=
  (decide ('0' ≤ c) && decide (c ≤ '9')) ||
  (decide ('a' ≤ c) && decide (c ≤ 'f')) ||
  (decide ('A' ≤ c) && decide (c ≤ 'F'))

def isVariantChar (c : Char) : Bool :=
  c == '8' || c == '9' || c == 'a' || c == 'b' || c == 'A' || c == 'B'

/-- Which characters the UUID-v4 pattern allows at position `i`. -/
def uuidCharOk (i : Nat) (c : Char) : Bool :=
  if i == 8 || i == 13 || i == 18 || i == 23 then c == '-'
  else if i == 14 then c == '4'
  else if i == 19 then isVariantChar c
  else isHexDigit c

/-- The strict UUID-v4 test (`UUID_RE.test(projectId)` in the source). -/
def isUuidV4 (pid : List Char) : Bool :=
  decide (pid.length = 36) &&
    (List.range 36).all fun i =>
      match pid.get? i with
      | some c => uuidCharOk i c
      | none => false

/-! ## Workspace paths (`safeWorkspacePath`)

`normalize(join(WORKSPACE_BASE, projectId))` followed by the check that
the result still starts with `WORKSPACE_BASE + '/'`.  Paths are character
lists; `normalize` resolves `.`, `..` and empty segments of an absolute
path the way `node:path` does. -/

def splitSlash : List Char → List (List Char)
  | [] => [[]]
  | c :: rest =>
    if c = '/' then [] :: splitSlash rest
    else
      match splitSlash rest with
      | [] => [[c]]
      | s :: ss => (c :: s) :: ss

def normStack : List (List Char) → List (List Char) → List (List Char)
  | acc, [] => acc
  | acc, seg :: rest =>
    if seg = [] ∨ seg = ['.'] then normStack acc rest
    else if seg = ['.', '.'] then normStack acc.dropLast rest
    else normStack (acc ++ [seg]) rest

def joinSegs : List (List Char) → List Char
  | [] => []
  | [s] => s
  | s :: rest => s ++ '/' :: joinSegs rest

def normalizeAbs (p : List Char) : List Char :=
  '/' :: joinSegs (normStack [] (splitSlash p))

/-- Error kinds thrown by the lifecycle controller. -/
inductive Err
  | invalidProjectId
  | pathTraversal
  | socketInaccessible
  | invalidRuntime
  | invalidNetworkMode
  | invalidPreviewPort
  | engine (statusCode : Nat)
deriving Repr, DecidableEq

def safeWorkspacePath (base : List Char) (pid : List Char) : Except Err (List Char) :=
  if isUuidV4 pid then
    let resolved := normalizeAbs (base ++ '/' :: pid)
    if (base ++ ['/']).isPrefixOf resolved || decide (resolved = base) then .ok resolved
    else .error .pathTraversal
  else .error .invalidProjectId

/-! ## Sandbox lifecycle controller state and effects -/

/-- Everything the engine records about one container that the source
reads back on `inspect`: running state, `HostConfig.NetworkMode`,
`Config.Env`, and the published host port of the preview-port binding
(`null` when there is no binding). -/
structure ContainerInfo where
  running : Bool
  networkMode : String
  env : List String
  publishedHostPort : Option String
deriving Repr, DecidableEq

/-- Environment-derived configuration: the workspace root, the validated
`SANDBOX_NETWORK_MODE` (default bridge) and `SANDBOX_PREVIEW_PORT`
(default 3000). -/
structure Config where
  workspaceBase : List Char
  sandboxNetworkMode : String
  sandboxPreviewPort : Int
deriving Repr, DecidableEq

/-- The controller's shared mutable state: the engine's container table
keyed by container name, `lastUsedMap`, and `creationLocks` (promise ids). -/
structure LCState where
  engine : List (List Char × ContainerInfo)
  lastUsed : List (List Char × Nat)
  locks : List (List Char × Nat)
deriving Repr, DecidableEq

/-- Externally observable calls, in issue order: filesystem accesses and
engine API calls made by the lifecycle controller, plus the registry-level
catalog lookup, attach, socket teardown and websocket close. -/
inductive Effect
  | accessSocket
  | mkdirp (path : List Char)
  | inspect (name : List Char)
  | startC (name : List Char)
  | stopC (name : List Char)
  | removeForce (name : List Char)
  | createC (name : List Char) (runtime : String)
  | catalogLookup (pid : List Char)
  | attachCall
  | destroySocket
  | stopRequest (pid : List Char)
  | wsClose (code : Nat) (reason : String)
deriving Repr, DecidableEq

def ALLOWED_RUNTIMES : List String := ["node", "python", "bun"]

def ALLOWED_NETWORK_MODES : List String := ["none", "bridge", "host"]

def MAX_SESSIONS_PER_PROJECT : Nat := 3

def MAX_SESSIONS_PER_USER : Nat := 5

def requiredEnvHome : String := "HOME=/home/sandbox/app"

def requiredEnvPwd : String := "PWD=/home/sandbox/app"

def requiredEnvPip : String := "PIP_CACHE_DIR=/home/sandbox/app/.cache/pip"

def requiredEnvPath : String :=
  "PATH=/home/sandbox/app/.local/bin:/usr/local/sbin:/usr/local/bin:/usr/sbin:/usr/bin:/sbin:/bin"

def containerName (pid : List Char) : List Char := "replit-".toList ++ pid

def getPublishedPreviewPort (info : ContainerInfo) : Option String :=
  info.publishedHostPort

def hasEnvValue (info : ContainerInfo) (expected : String) : Bool :=
  decide (expected ∈ info.env)

/-- Check `requiresContainerRecreate` from the source: an existing sandbox is
destroyed and recreated when its network mode differs from the configured
one, a required environment entry is missing, or no preview port is
published. -/
def requiresContainerRecreate (cfg : Config) (info : ContainerInfo) : Bool :=
  if !(info.networkMode == cfg.sandboxNetworkMode) then true
  else if !(hasEnvValue info requiredEnvHome) then true
  else if !(hasEnvValue info requiredEnvPip) then true
  else if !(hasEnvValue info requiredEnvPath) then true
  else (getPublishedPreviewPort info).isNone

def createdEnv : List String :=
  [requiredEnvHome, requiredEnvPwd, requiredEnvPip, requiredEnvPath]

/-- The container the creation request produces, as the engine would
report it after `createContainer` + `start`: the requested network mode
and environment, and the engine-assigned published preview port. -/
def createdInfo (cfg : Config) (assignedPort : String) : ContainerInfo :=
  { running := true, networkMode := cfg.sandboxNetworkMode, env := createdEnv,
    publishedHostPort := some assignedPort }

/-- Function `_getOrCreateContainer` from the source, with the engine modelled at
its interface boundary: `inspect` reports the stored `ContainerInfo` or
404 when the name is absent; `create`/`start`/`stop`/`remove` succeed on
this path.  Returns the result, the new state, and the ordered effect
trace. -/
def _getOrCreateContainer (cfg : Config) (socketOk : Bool) (now : Nat) (assignedPort : String)
    (st : LCState) (pid : List Char) (runtime : String) :
    Except Err (List Char) × LCState × List Effect :=
  if !(isUuidV4 pid) then (.error .invalidProjectId, st, [])
  else if !socketOk then (.error .socketInaccessible, st, [.accessSocket])
  else if !(decide (runtime ∈ ALLOWED_RUNTIMES)) then (.error .invalidRuntime, st, [.accessSocket])
  else if !(decide (cfg.sandboxNetworkMode ∈ ALLOWED_NETWORK_MODES)) then
    (.error .invalidNetworkMode, st, [.accessSocket])
  else if !(decide (1 ≤ cfg.sandboxPreviewPort ∧ cfg.sandboxPreviewPort ≤ 65535)) then
    (.error .invalidPreviewPort, st, [.accessSocket])
  else
    match safeWorkspacePath cfg.workspaceBase pid with
    | .error e => (.error e, st, [.accessSocket])
    | .ok hostPath =>
      let name := containerName pid
      let eff0 : List Effect := [.accessSocket, .mkdirp hostPath, .inspect name]
      match lookupA st.engine name with
      | some info =>
        if requiresContainerRecreate cfg info then
          let effPre := eff0 ++ (if info.running then [Effect.stopC name] else []) ++
            [Effect.removeForce name]
          let st1 : LCState := { st with engine := eraseA st.engine name }
          (.ok name,
            { st1 with engine := setA st1.engine name (createdInfo cfg assignedPort),
                       lastUsed := setA st1.lastUsed pid now },
            effPre ++ [Effect.createC name runtime, Effect.startC name])
        else if !info.running then
          (.ok name,
            { st with engine := setA st.engine name { info with running := true },
                      lastUsed := setA st.lastUsed pid now },
            eff0 ++ [Effect.startC name])
        else
          (.ok name, { st with lastUsed := setA st.lastUsed pid now }, eff0)
      | none =>
        (.ok name,
          { st with engine := setA st.engine name (createdInfo cfg assignedPort),
                    lastUsed := setA st.lastUsed pid now },
          eff0 ++ [Effect.createC name runtime, Effect.startC name])

/-- Operation `ContainerManager.stopContainer`.  The engine's stop endpoint is
modelled from the spec at its interface boundary: stopping an existing
sandbox succeeds (whatever its state), stopping an absent sandbox reports
404, and `fault` injects a genuine engine failure with the given status
code (`some 404` is the not-found outcome itself).  The `finally` block
clearing `lastUsedMap` runs only when the `try` was reached — not when
`assertSafeProjectId` or the socket-accessibility check throws first. -/
def stopContainer (socketOk : Bool) (fault : Option Nat) (st : LCState) (pid : List Char) :
    Except Err Unit × LCState × List Effect :=
  if !(isUuidV4 pid) then (.error .invalidProjectId, st, [])
  else if !socketOk then (.error .socketInaccessible, st, [.accessSocket])
  else
    let name := containerName pid
    match fault with
    | some code =>
      if code = 404 then
        (.ok (), { st with lastUsed := eraseA st.lastUsed pid }, [.accessSocket, .stopC name])
      else
        (.error (.engine code), { st with lastUsed := eraseA st.lastUsed pid },
          [.accessSocket, .stopC name])
    | none =>
      match lookupA st.engine name with
      | none =>
        (.ok (), { st with lastUsed := eraseA st.lastUsed pid }, [.accessSocket, .stopC name])
      | some info =>
        (.ok (), { st with engine := setA st.engine name { info with running := false },
                           lastUsed := eraseA st.lastUsed pid }, [.accessSocket, .stopC name])

/-- Operation `ContainerManager.removeContainer`: force removal, 404 treated as
success, `finally` clears both `lastUsedMap` and `creationLocks`. -/
def removeContainer (socketOk : Bool) (fault : Option Nat) (st : LCState) (pid : List Char) :
    Except Err Unit × LCState × List Effect :=
  if !(isUuidV4 pid) then (.error .invalidProjectId, st, [])
  else if !socketOk then (.error .socketInaccessible, st, [.accessSocket])
  else
    let name := containerName pid
    match fault with
    | some code =>
      if code = 404 then
        (.ok (), { st with lastUsed := eraseA st.lastUsed pid, locks := eraseA st.locks pid },
          [.accessSocket, .removeForce name])
      else
        (.error (.engine code),
          { st with lastUsed := eraseA st.lastUsed pid, locks := eraseA st.locks pid },
          [.accessSocket, .removeForce name])
    | none =>
      (.ok (),
        { st with engine := eraseA st.engine name,
                  lastUsed := eraseA st.lastUsed pid, locks := eraseA st.locks pid },
        [.accessSocket, .removeForce name])

/-- Operation `ContainerManager.getStatus`: a pure read returning
`(exists, running)`; it never mutates any table (its type has no state
output). -/
def getStatus (socketOk : Bool) (st : LCState) (pid : List Char) :
    Except Err (Bool × Bool) × List Effect :=
  if !(isUuidV4 pid) then (.error .invalidProjectId, [])
  else if !socketOk then (.error .socketInaccessible, [.accessSocket])
  else
    let name := containerName pid
    match lookupA st.engine name with
    | none => (.ok (false, false), [.accessSocket, .inspect name])
    | some info => (.ok (true, info.running), [.accessSocket, .inspect name])

structure PreviewInfo where
  available : Bool
  url : Option String
  port : Int
  hostPort : Option String
deriving Repr, DecidableEq

def previewUrlBase : String := "http://127.0.0.1:"

/-- Operation `ContainerManager.getPreview`: read-only; unavailable whenever the
sandbox is absent, not running, or has no published preview port. -/
def getPreview (cfg : Config) (socketOk : Bool) (st : LCState) (pid : List Char) :
    Except Err PreviewInfo × List Effect :=
  if !(isUuidV4 pid) then (.error .invalidProjectId, [])
  else if !socketOk then (.error .socketInaccessible, [.accessSocket])
  else
    let name := containerName pid
    match lookupA st.engine name with
    | none =>
      (.ok { available := false, url := none, port := cfg.sandboxPreviewPort, hostPort := none },
        [.accessSocket, .inspect name])
    | some info =>
      if !info.running then
        (.ok { available := false, url := none, port := cfg.sandboxPreviewPort, hostPort := none },
          [.accessSocket, .inspect name])
      else
        match getPublishedPreviewPort info with
        | none =>
          (.ok { available := false, url := none, port := cfg.sandboxPreviewPort,
                 hostPort := none },
            [.accessSocket, .inspect name])
        | some hp =>
          (.ok { available := true, url := some (previewUrlBase ++ hp),
                 port := cfg.sandboxPreviewPort, hostPort := some hp },
            [.accessSocket, .inspect name])

/-- Operation `ContainerManager.markUsed`: sets the last-used timestamp.  Note the
source performs no identifier validation here and makes no filesystem or
engine call. -/
def markUsed (now : Nat) (st : LCState) (pid : List Char) : LCState :=
  { st with lastUsed := setA st.lastUsed pid now }

/-! ## The creation lock (`ContainerManager.getOrCreateContainer`)

The wrapper around `_getOrCreateContainer`: look up `creationLocks`; if a
promise is stored, return it; otherwise start the real work, store the
promise, and delete the entry in a `.finally` when it settles.  Promises
are numbered; `started` records one entry per underlying creation actually
begun. -/

structure LockTable where
  locks : List (List Char × Nat)
  nextP : Nat
  started : List Nat
deriving Repr, DecidableEq

/-- One `getOrCreateContainer` call, up to the point where it either
returns the stored in-flight promise unchanged or begins a fresh
underlying creation and stores its promise. -/
def lockCall (t : LockTable) (pid : List Char) : Nat × LockTable :=
  match lookupA t.locks pid with
  | some q => (q, t)
  | none =>
    (t.nextP, { locks := setA t.locks pid t.nextP, nextP := t.nextP + 1,
                started := t.started ++ [t.nextP] })

/-- The `.finally` callback: runs when the stored creation settles —
whether it resolved or rejected (`success` does not influence it) — and
deletes the per-project entry. -/
def lockSettle (t : LockTable) (pid : List Char) (_success : Bool) : LockTable :=
  { t with locks := eraseA t.locks pid }

/-- Run `n` successive `getOrCreateContainer` calls for `pid`, collecting the
promise each caller receives. -/
def lockCallN : LockTable → List Char → Nat → List Nat × LockTable
  | t, _, 0 => ([], t)
  | t, pid, n + 1 =>
    let r1 := lockCall t pid
    let r2 := lockCallN r1.2 pid n
    (r1.1 :: r2.1, r2.2)

/-! ## Terminal session registry -/

/-- Registry state: the wsId → socket map (domain only) and the
by-project / by-user session-id indexes. -/
structure RegState where
  sessionMap : List String
  projectSessions : List (List Char × List String)
  userSessions : List (String × List String)
deriving Repr, DecidableEq

def setAddElem (l : List String) (x : String) : List String :=
  if x ∈ l then l else l ++ [x]

def addSession {κ : Type} [DecidableEq κ] (m : List (κ × List String)) (k : κ) (x : String) :
    List (κ × List String) :=
  setA m k (setAddElem ((lookupA m k).getD []) x)

/-- Index update `set.delete(wsId)` followed by deleting the index entry when the set
became empty. -/
def removeSession {κ : Type} [DecidableEq κ] (m : List (κ × List String)) (k : κ) (x : String) :
    List (κ × List String) :=
  match lookupA m k with
  | none => m
  | some s =>
    let s1 := s.filter (fun y => y ≠ x)
    if s1 = [] then eraseA m k else setA m k s1

def msgUnauthorized : String := "Unauthorized"

def msgTooManyProject : String := "Too many terminal sessions for this project"

def msgTooManyUser : String := "Too many terminal sessions for this user"

def msgProjectNotFound : String := "Project not found"

def msgContainerNotRunning : String := "Container not running"

def msgTerminalInitFailed : String := "Terminal initialization failed"

def msgShellExited : String := "Shell exited"

/-- Handler `cleanupSession`: destroy the sandbox-side socket if one is
tracked, then drop the session id from the by-project and by-user
indexes.  The function body itself issues no lifecycle call — but
`socket.destroy()` emits `'close'` on the sandbox socket on the next
tick, and the `closeForShellExit` listener registered at open is never
removed, so the full client-disconnect path (`clientDisconnect` below)
does reach the lifecycle controller. -/
def cleanupSession (reg : RegState) (wsId : String) (pid? : Option (List Char))
    (uid? : Option String) : RegState × List Effect :=
  let step1 :=
    if wsId ∈ reg.sessionMap then
      ({ reg with sessionMap := reg.sessionMap.filter (fun y => y ≠ wsId) },
        [Effect.destroySocket])
    else (reg, ([] : List Effect))
  let reg2 :=
    match pid? with
    | some pid => { step1.1 with projectSessions := removeSession step1.1.projectSessions pid wsId }
    | none => step1.1
  let reg3 :=
    match uid? with
    | some uid => { reg2 with userSessions := removeSession reg2.userSessions uid wsId }
    | none => reg2
  (reg3, step1.2)

inductive OpenOutcome
  | closed (code : Nat) (reason : String)
  | registered
  | pendingLock
deriving Repr, DecidableEq

/-- The websocket `open` handler: authentication result, per-project cap,
per-user cap, catalog lookup, `getOrCreateContainer`, re-inspect, attach,
then registration in the three tracking maps and `markUsed`.  `catalog`
is the project-catalog collaborator's answer (the runtime when the
project exists and is owned by the user), `attachOk` the attach client's
outcome.  When a creation lock is in flight the call joins that promise
(`pendingLock`) instead of running `_getOrCreateContainer` itself. -/
def openTerminal (cfg : Config) (socketOk : Bool) (now : Nat) (assignedPort : String)
    (catalog : Option String) (attachOk : Bool)
    (reg : RegState) (lc : LCState)
    (wsId : String) (pid : List Char) (userId : Option String) :
    OpenOutcome × RegState × LCState × List Effect :=
  match userId with
  | none => (.closed 1008 msgUnauthorized, reg, lc, [])
  | some uid =>
    let projSet := (lookupA reg.projectSessions pid).getD []
    if MAX_SESSIONS_PER_PROJECT ≤ projSet.length then
      (.closed 1008 msgTooManyProject, reg, lc, [])
    else
      let userSet := (lookupA reg.userSessions uid).getD []
      if MAX_SESSIONS_PER_USER ≤ userSet.length then
        (.closed 1008 msgTooManyUser, reg, lc, [])
      else
        match catalog with
        | none => (.closed 1008 msgProjectNotFound, reg, lc, [.catalogLookup pid])
        | some runtime =>
          match lookupA lc.locks pid with
          | some _ => (.pendingLock, reg, lc, [.catalogLookup pid])
          | none =>
            match _getOrCreateContainer cfg socketOk now assignedPort lc pid runtime with
            | (.error _, lc1, eff) =>
              (.closed 1011 msgTerminalInitFailed, reg, lc1, .catalogLookup pid :: eff)
            | (.ok name, lc1, eff) =>
              match lookupA lc1.engine name with
              | none =>
                (.closed 1011 msgTerminalInitFailed, reg, lc1,
                  .catalogLookup pid :: (eff ++ [.inspect name]))
              | some info =>
                if !info.running then
                  (.closed 1011 msgContainerNotRunning, reg, lc1,
                    .catalogLookup pid :: (eff ++ [.inspect name]))
                else if !attachOk then
                  (.closed 1011 msgTerminalInitFailed, reg, lc1,
                    .catalogLookup pid :: (eff ++ [.inspect name, .attachCall]))
                else
                  (.registered,
                    { sessionMap := setAddElem reg.sessionMap wsId,
                      projectSessions := addSession reg.projectSessions pid wsId,
                      userSessions := addSession reg.userSessions uid wsId },
                    markUsed now lc1 pid,
                    .catalogLookup pid :: (eff ++ [.inspect name, .attachCall]))

/-- The events the source wires to `closeForShellExit` on the sandbox
stream: `end`, `close` and `error`. -/
inductive StreamEvent
  | ended
  | erroredS
  | closedS
deriving Repr, DecidableEq

/-- Handler `closeForShellExit`: guarded by the `sessionClosed` flag (checked and
set synchronously before the first await), it asks the lifecycle
controller to stop the project's sandbox and closes the client connection
with the distinct shell-exited reason. -/
def closeForShellExit (sessionClosed : Bool) (pid : List Char) : Bool × List Effect :=
  if sessionClosed then (true, [])
  else (true, [.stopRequest pid, .wsClose 4000 msgShellExited])

/-- All three sandbox-stream events run the same teardown. -/
def onSandboxStreamEvent (_e : StreamEvent) (sessionClosed : Bool) (pid : List Char) :
    Bool × List Effect :=
  closeForShellExit sessionClosed pid

/-- The full client-disconnect path.  The websocket `close` handler runs
`cleanupSession`; when a sandbox socket was tracked, its
`socket.destroy()` emits `'close'` on that socket on the next tick, and
the `closeForShellExit` listener registered at open — never removed — then
runs: unless the session was already marked closed, it sets the flag,
stops the project's container through `ContainerManager.stopContainer`
(errors swallowed by the `try`/`catch`), and attempts `ws.close(4000)` on
the already-closed client connection. -/
def clientDisconnect (socketOk : Bool) (fault : Option Nat) (reg : RegState) (lc : LCState)
    (wsId : String) (pid : List Char) (uid : String) (sessionClosed : Bool) :
    RegState × LCState × Bool × List Effect :=
  let c := cleanupSession reg wsId (some pid) (some uid)
  if wsId ∈ reg.sessionMap then
    if sessionClosed then (c.1, lc, true, c.2)
    else
      let s := stopContainer socketOk fault lc pid
      (c.1, s.2.1, true,
        c.2 ++ [Effect.stopRequest pid, Effect.wsClose 4000 msgShellExited])
  else (c.1, lc, sessionClosed, c.2)

/-! ## Authentication (`derive` in the terminal module) -/

/-- JS truthiness of the token variable: `undefined` and `''` are falsy. -/
def jsTruthy (o : Option String) : Bool :=
  match o with
  | none => false
  | some s => !s.isEmpty

/-- Token selection: the cookie value, or — when it is falsy and the
query-string `token` parameter is a string — that parameter; `none` when
the result is still falsy. -/
def pickToken (cookieTok queryTok : Option String) : Option String :=
  let t := if jsTruthy cookieTok then cookieTok
           else match queryTok with
                | some q => some q
                | none => cookieTok
  if jsTruthy t then t else none

/-- Handler `derive`: verify the selected token; `verify` models
`jwtPlugin.verify` followed by `payload?.id ?? null` (`none` for an
invalid token, a thrown verification error, or a payload without id). -/
def deriveUserId (verify : String → Option String) (cookieTok queryTok : Option String) :
    Option String :=
  match pickToken cookieTok queryTok with
  | none => none
  | some tok => verify tok

/-! ## Concrete values used by the witnesses -/

def pidW : List Char := "123e4567-e89b-4d3c-8456-426614174000".toList

def badPidW : List Char := "not-a-uuid".toList

def baseW : List Char := "/srv/workspaces".toList

def segsW : List (List Char) := ["srv".toList, "workspaces".toList]

def modeBridge : String := "bridge"

def modeNone : String := "none"

def rtNode : String := "node"

def apW : String := "32768"

def wsA : String := "w1"

def wsB : String := "w2"

def wsC : String := "w3"

def wsNew : String := "w9"

def uidW : String := "user-1"

def tokW : String := "tok"

def cfgW : Config :=
  { workspaceBase := baseW, sandboxNetworkMode := modeBridge, sandboxPreviewPort := 3000 }

def lcEmptyW : LCState := { engine := [], lastUsed := [], locks := [] }

def regEmptyW : RegState := { sessionMap := [], projectSessions := [], userSessions := [] }

/-! ## C1: the creation lock -/

/-- C1: while a creation for a project is in flight, every additional
`getOrCreateContainer` call returns the stored promise and starts no new
engine work (the lock table, including `started`, is unchanged, so every
concurrent caller awaits — and receives the result or error of — that one
creation); the `.finally` deletes the per-project entry when the creation
settles, whether it succeeded or failed; and a call finding no lock starts
exactly one underlying creation and stores its promise. -/
theorem creation_lock_single_creation :
    (∀ (t : LockTable) (pid : List Char) (q : Nat), lookupA t.locks pid = some q →
      ∀ n, lockCallN t pid n = (List.replicate n q, t)) ∧
    (∀ (t : LockTable) (pid : List Char) (success : Bool),
      lookupA (lockSettle t pid success).locks pid = none) ∧
    (∀ (t : LockTable) (pid : List Char), lookupA t.locks pid = none →
      (lockCall t pid).1 = t.nextP ∧
      (lockCall t pid).2.started = t.started ++ [t.nextP] ∧
      lookupA (lockCall t pid).2.locks pid = some t.nextP) := by
  refine ⟨?_, ?_, ?_⟩
  · intro t pid q h n
    induction n with
    | zero => rfl
    | succ n ih =>
      show lockCallN t pid (n + 1) = _
      unfold lockCallN
      rw [show lockCall t pid = (q, t) from by unfold lockCall; rw [h]]
      simp [ih, List.replicate_succ]
  · intro t pid success
    exact lookupA_eraseA_self t.locks pid
  · intro t pid h
    unfold lockCall
    rw [h]
    exact ⟨rfl, rfl, lookupA_setA_self t.locks pid t.nextP⟩

/-- Witness for C1 at a held lock (promise 7), a settle, and a fresh call. -/
theorem creation_lock_single_creation_witness :
    lockCallN ⟨[(pidW, 7)], 8, [7]⟩ pidW 3 = ([7, 7, 7], ⟨[(pidW, 7)], 8, [7]⟩) ∧
    lookupA (lockSettle ⟨[(pidW, 7)], 8, [7]⟩ pidW false).locks pidW = none ∧
    (lockCall ⟨[], 0, []⟩ pidW).1 = 0 := by
  refine ⟨?_, ?_, ?_⟩
  · have h := creation_lock_single_creation.1 ⟨[(pidW, 7)], 8, [7]⟩ pidW 7 (by decide) 3
    simpa using h
  · exact creation_lock_single_creation.2.1 ⟨[(pidW, 7)], 8, [7]⟩ pidW false
  · exact (creation_lock_single_creation.2.2 ⟨[], 0, []⟩ pidW (by decide)).1

/-! ## C6: shell-exit teardown -/

/-- C6: whichever way the sandbox-side stream terminates (end, error or
close), the teardown issues a stop request for the project and closes the
client connection with the distinct shell-exited reason (4000, different
from the 1008/1011 codes used elsewhere); a second trigger of any kind is
a no-op, so the teardown runs at most once per session. -/
theorem shell_exit_teardown :
    ∀ (e e2 : StreamEvent) (pid : List Char),
      onSandboxStreamEvent e false pid =
        (true, [Effect.stopRequest pid, Effect.wsClose 4000 msgShellExited]) ∧
      onSandboxStreamEvent e2 (onSandboxStreamEvent e false pid).1 pid = (true, []) ∧
      (4000 ≠ 1008 ∧ 4000 ≠ 1011) := by
  intro e e2 pid
  exact ⟨rfl, rfl, by omega, by omega⟩

/-! ## C10: terminal authentication -/

/-- C10: the open endpoint takes the JWT from the cookie, or — when the
cookie is absent — from the `token` query parameter; when neither yields
a user id the websocket is closed with the Unauthorized policy close
(1008) with no catalog lookup, no engine call and no session
registration (states unchanged, no effects). -/
theorem terminal_auth_cookie_query_and_unauthorized_close :
    (∀ (c : String) (q : Option String), c ≠ "" → pickToken (some c) q = some c) ∧
    (∀ q : String, q ≠ "" → pickToken none (some q) = some q) ∧
    pickToken none none = none ∧
    (∀ (verify : String → Option String) (c q : Option String),
      deriveUserId verify c q = none →
      ∀ cfg socketOk now ap catalog attachOk reg lc wsId pid,
        openTerminal cfg socketOk now ap catalog attachOk reg lc wsId pid
          (deriveUserId verify c q) =
          (.closed 1008 msgUnauthorized, reg, lc, [])) := by
  refine ⟨?_, ?_, rfl, ?_⟩
  · intro c q hc
    have he : c.isEmpty = false := by
      rw [Bool.eq_false_iff]
      intro he
      exact hc ((String.isEmpty_iff c).mp he)
    simp [pickToken, jsTruthy, he]
  · intro q hq
    have he : q.isEmpty = false := by
      rw [Bool.eq_false_iff]
      intro he
      exact hq ((String.isEmpty_iff q).mp he)
    simp [pickToken, jsTruthy, he]
  · intro verify c q h cfg socketOk now ap catalog attachOk reg lc wsId pid
    rw [h]
    rfl

/-- Witness for C10: cookie token wins, query fallback, and the
unauthorized close on a verifier that rejects every token. -/
theorem terminal_auth_witness :
    pickToken (some tokW) none = some tokW ∧
    pickToken none (some tokW) = some tokW ∧
    openTerminal cfgW true 0 apW none false regEmptyW lcEmptyW wsA pidW
        (deriveUserId (fun _ => none) (some tokW) none) =
      (.closed 1008 msgUnauthorized, regEmptyW, lcEmptyW, []) := by
  refine ⟨?_, ?_, ?_⟩
  · exact terminal_auth_cookie_query_and_unauthorized_close.1 tokW none (by decide)
  · exact terminal_auth_cookie_query_and_unauthorized_close.2.1 tokW (by decide)
  · exact terminal_auth_cookie_query_and_unauthorized_close.2.2.2 (fun _ => none)
      (some tokW) none rfl cfgW true 0 apW none false regEmptyW lcEmptyW wsA pidW

/-! ## C5: session caps -/

/-- C5: a 4th session for a project already holding 3 (the configured
per-project cap) is rejected with the policy-violation close (1008)
before any catalog lookup, engine call or attach (no effects), and the
connection is never added to the by-project or by-user indexes (states
unchanged); the per-user cap of 5 is enforced the same way before any
further work. -/
theorem session_caps_reject_before_any_work :
    (∀ cfg socketOk now ap catalog attachOk (reg : RegState) lc wsId pid uid,
      MAX_SESSIONS_PER_PROJECT ≤ ((lookupA reg.projectSessions pid).getD []).length →
      openTerminal cfg socketOk now ap catalog attachOk reg lc wsId pid (some uid) =
        (.closed 1008 msgTooManyProject, reg, lc, [])) ∧
    (∀ cfg socketOk now ap catalog attachOk (reg : RegState) lc wsId pid uid,
      ((lookupA reg.projectSessions pid).getD []).length < MAX_SESSIONS_PER_PROJECT →
      MAX_SESSIONS_PER_USER ≤ ((lookupA reg.userSessions uid).getD []).length →
      openTerminal cfg socketOk now ap catalog attachOk reg lc wsId pid (some uid) =
        (.closed 1008 msgTooManyUser, reg, lc, [])) := by
  constructor
  · intro cfg socketOk now ap catalog attachOk reg lc wsId pid uid h
    simp only [openTerminal]
    rw [if_pos h]
  · intro cfg socketOk now ap catalog attachOk reg lc wsId pid uid h1 h2
    simp only [openTerminal]
    rw [if_neg (Nat.not_le_of_lt h1), if_pos h2]

/-- Witness for C5: a project with exactly 3 registered sessions rejects a
4th, and a user with 5 sessions is rejected on a fresh project. -/
theorem session_caps_witness :
    openTerminal cfgW true 0 apW (some rtNode) true
        { sessionMap := [wsA, wsB, wsC], projectSessions := [(pidW, [wsA, wsB, wsC])],
          userSessions := [(uidW, [wsA, wsB, wsC])] }
        lcEmptyW wsNew pidW (some uidW) =
      (.closed 1008 msgTooManyProject,
        { sessionMap := [wsA, wsB, wsC], projectSessions := [(pidW, [wsA, wsB, wsC])],
          userSessions := [(uidW, [wsA, wsB, wsC])] }, lcEmptyW, []) ∧
    openTerminal cfgW true 0 apW (some rtNode) true
        { sessionMap := [wsA, wsB, wsC, wsNew, uidW], projectSessions := [],
          userSessions := [(uidW, [wsA, wsB, wsC, wsNew, uidW])] }
        lcEmptyW tokW pidW (some uidW) =
      (.closed 1008 msgTooManyUser,
        { sessionMap := [wsA, wsB, wsC, wsNew, uidW], projectSessions := [],
          userSessions := [(uidW, [wsA, wsB, wsC, wsNew, uidW])] }, lcEmptyW, []) := by
  constructor
  · exact session_caps_reject_before_any_work.1 cfgW true 0 apW (some rtNode) true
      _ lcEmptyW wsNew pidW uidW (by decide)
  · exact session_caps_reject_before_any_work.2 cfgW true 0 apW (some rtNode) true
      _ lcEmptyW tokW pidW uidW (by decide) (by decide)

/-! ## C4: stopContainer idempotency and tracking cleanup -/

/-- A running, configuration-current sandbox for the witness project. -/
def infoRunW : ContainerInfo :=
  { running := true, networkMode := modeBridge, env := createdEnv,
    publishedHostPort := some apW }

def lcTrackW : LCState := { engine := [], lastUsed := [(pidW, 5)], locks := [] }

def lcOneW : LCState :=
  { engine := [(containerName pidW, infoRunW)], lastUsed := [(pidW, 5)], locks := [] }

/-- C4 counterexample: when the docker-socket accessibility check fails,
`stopContainer` rejects before entering the `try`/`finally`, so the
idle-tracking entry for the project is NOT deleted by the time the call
settles — against the claim that it is deleted in every failure case. -/
theorem stopContainer_socket_failure_keeps_tracking :
    (stopContainer false none lcTrackW pidW).1 = Except.error Err.socketInaccessible ∧
    lookupA (stopContainer false none lcTrackW pidW).2.1.lastUsed pidW = some 5 := by
  constructor
  · rfl
  · rfl

/-- C4 (amended): `stopContainer` on an absent sandbox succeeds as a
no-op (404 swallowed), and a second stop immediately after a first also
succeeds; whenever execution reaches the engine stop call — success,
not-found, or an injected engine failure — the idle-tracking entry is
deleted by the time the call settles.  (When the identifier is invalid or
the socket-accessibility check fails, the call rejects before the
`finally`, leaving tracking untouched.) -/
theorem stopContainer_idempotent_and_clears_tracking :
    (∀ (st : LCState) (pid : List Char), isUuidV4 pid = true →
      lookupA st.engine (containerName pid) = none →
      (stopContainer true none st pid).1 = .ok ()) ∧
    (∀ (st : LCState) (pid : List Char) (fault : Option Nat), isUuidV4 pid = true →
      lookupA (stopContainer true fault st pid).2.1.lastUsed pid = none) ∧
    (∀ (st : LCState) (pid : List Char), isUuidV4 pid = true →
      (stopContainer true none (stopContainer true none st pid).2.1 pid).1 = .ok () ∧
      lookupA (stopContainer true none (stopContainer true none st pid).2.1 pid).2.1.lastUsed
        pid = none) := by
  have hok : ∀ (st : LCState) (pid : List Char), isUuidV4 pid = true →
      (stopContainer true none st pid).1 = .ok () := by
    intro st pid h
    cases he : lookupA st.engine (containerName pid) with
    | none => simp [stopContainer, h, he]
    | some info => simp [stopContainer, h, he]
  have hclear : ∀ (st : LCState) (pid : List Char) (fault : Option Nat), isUuidV4 pid = true →
      lookupA (stopContainer true fault st pid).2.1.lastUsed pid = none := by
    intro st pid fault h
    cases fault with
    | none =>
      cases he : lookupA st.engine (containerName pid) with
      | none => simp [stopContainer, h, he, lookupA_eraseA_self]
      | some info => simp [stopContainer, h, he, lookupA_eraseA_self]
    | some code =>
      by_cases hc : code = 404
      · simp [stopContainer, h, hc, lookupA_eraseA_self]
      · simp [stopContainer, h, hc, lookupA_eraseA_self]
  refine ⟨fun st pid h _ => hok st pid h, hclear, fun st pid h => ?_⟩
  exact ⟨hok _ pid h, hclear _ pid none h⟩

/-- Witness for C4 (amended): stop of an absent sandbox, tracking cleared
under an injected engine failure (500), and a second stop after a first. -/
theorem stopContainer_idempotent_witness :
    (stopContainer true none lcEmptyW pidW).1 = .ok () ∧
    lookupA (stopContainer true (some 500) lcTrackW pidW).2.1.lastUsed pidW = none ∧
    (stopContainer true none (stopContainer true none lcOneW pidW).2.1 pidW).1 = .ok () := by
  refine ⟨?_, ?_, ?_⟩
  · exact stopContainer_idempotent_and_clears_tracking.1 lcEmptyW pidW (by decide) rfl
  · exact stopContainer_idempotent_and_clears_tracking.2.1 lcTrackW pidW (some 500) (by decide)
  · exact (stopContainer_idempotent_and_clears_tracking.2.2 lcOneW pidW (by decide)).1

/-! ## C9: no bounded wait in the attach handshake -/

lemma firstTerm_take_none_of_none {l : List Nat} {n : Nat}
    (hl : firstTerm l = none) : firstTerm (l.take n) = none := by
  rw [firstTerm_eq_none_iff] at hl ⊢
  intro j
  cases hc : isTermAt ((l.take n).drop j)
  · rfl
  · exfalso
    have hlen := isTermAt_length hc
    rw [List.length_drop, List.length_take] at hlen
    have hj : j + 4 ≤ n := by
      have := Nat.min_le_left n l.length
      omega
    have heq := isTermAt_take (l := l) (n := n) (j := j) hj
    rw [hc, hl j] at heq
    cases heq

lemma foldl_attach_noterm (chunks : List (List Nat)) :
    ∀ buf : List Nat, firstTerm (buf ++ chunks.join) = none →
    List.foldl attachStep ⟨buf, false, false, none, []⟩ (chunks.map SockEvent.data) =
      ⟨buf ++ chunks.join, false, false, none, []⟩ := by
  induction chunks with
  | nil =>
    intro buf _
    simp
  | cons c cs ih =>
    intro buf h
    have hassoc : buf ++ (c :: cs).join = (buf ++ c) ++ cs.join := by
      simp
    have hpre : firstTerm (buf ++ c) = none := by
      have he : buf ++ c = (buf ++ (c :: cs).join).take (buf.length + c.length) := by
        rw [hassoc]
        rw [show (buf ++ c) ++ cs.join = buf ++ (c ++ cs.join) from List.append_assoc buf c _]
        rw [List.take_append, List.take_left]
      rw [he]
      exact firstTerm_take_none_of_none h
    simp only [List.map_cons, List.foldl_cons]
    rw [attachStep_data_none hpre]
    rw [ih (buf ++ c) (by rw [← hassoc]; exact h)]
    rw [show (buf ++ c) ++ cs.join = buf ++ (c :: cs).join from hassoc.symm]

lemma firstTerm_none_of_no_cr {l : List Nat} (h : 13 ∉ l) : firstTerm l = none := by
  rw [firstTerm_eq_none_iff]
  intro j
  cases hc : isTermAt (l.drop j)
  · rfl
  · exfalso
    rw [isTermAt_iff] at hc
    have h13 : 13 ∈ ((l.drop j).take 4) := by
      rw [hc]
      simp [headerTerm]
    exact h (List.drop_subset j l (List.take_subset 4 _ h13))

/-- C9 counterexample: a connected socket that delivers 100 reads of a
byte that never completes the header terminator leaves the attach promise
pending — nothing times it out, against the claim that `dockerAttach`
fails with an upgrade-timeout error within a bounded window. -/
theorem dockerAttach_no_timeout_counterexample :
    (runAttach (List.replicate 100 (SockEvent.data [65]))).outcome = none ∧
    (runAttach (List.replicate 100 (SockEvent.data [65]))).headerDone = false := by
  have h := foldl_attach_noterm (List.replicate 100 [65]) []
    (by
      apply firstTerm_none_of_no_cr
      simp [List.mem_join, List.mem_replicate])
  have hmap : List.replicate 100 (SockEvent.data [65]) =
      (List.replicate 100 ([65] : List Nat)).map SockEvent.data := by
    rw [List.map_replicate]
  rw [hmap]
  have hr : runAttach ((List.replicate 100 ([65] : List Nat)).map SockEvent.data) =
      ⟨[] ++ (List.replicate 100 ([65] : List Nat)).join, false, false, none, []⟩ := h
  rw [hr]
  exact ⟨rfl, rfl⟩

/-- C9 (amended): `dockerAttach` has no bounded wait.  Its only
registered callbacks are `data`, `error` and `close`; over any sequence
of data reads whose bytes never contain the header terminator, the attach
promise is still pending, however long the sequence — it settles only
when the terminator arrives or the socket errors or closes (an error
event then rejects it). -/
theorem dockerAttach_pends_without_terminator
    (chunks : List (List Nat)) (h : firstTerm chunks.join = none) :
    (runAttach (chunks.map SockEvent.data)).outcome = none ∧
    (runAttach (chunks.map SockEvent.data ++ [SockEvent.errored])).outcome = some false := by
  have hrun : runAttach (chunks.map SockEvent.data) =
      ⟨chunks.join, false, false, none, []⟩ := by
    have := foldl_attach_noterm chunks [] (by simpa using h)
    simpa [runAttach, attachInit] using this
  constructor
  · rw [hrun]
  · show (List.foldl attachStep attachInit (chunks.map SockEvent.data ++ [SockEvent.errored])).outcome = some false
    rw [List.foldl_append]
    rw [show List.foldl attachStep attachInit (chunks.map SockEvent.data) =
      runAttach (chunks.map SockEvent.data) from rfl]
    rw [hrun]
    rfl

/-- Witness for C9 (amended): a concrete terminator-free read sequence. -/
theorem dockerAttach_pends_witness :
    firstTerm ([[72, 73], [74]] : List (List Nat)).join = none ∧
    (runAttach (([[72, 73], [74]] : List (List Nat)).map SockEvent.data)).outcome = none := by
  refine ⟨by decide, ?_⟩
  exact (dockerAttach_pends_without_terminator [[72, 73], [74]] (by decide)).1

/-! ## C8: destroy-then-recreate on configuration drift -/

/-- C8: `getOrCreate` on an existing sandbox whose recorded network mode
differs from the configured `SANDBOX_NETWORK_MODE` — or whose required
environment entries or published preview port are missing
(`requiresContainerRecreate`) — stops it if running, force-removes it,
falls through to creation, and the resulting sandbox records exactly the
configured network mode. -/
theorem getOrCreate_recreates_on_config_drift
    (cfg : Config) (now : Nat) (ap : String) (st : LCState) (pid : List Char)
    (runtime : String) (info : ContainerInfo) (hp : List Char)
    (hpid : isUuidV4 pid = true)
    (hrt : runtime ∈ ALLOWED_RUNTIMES)
    (hnm : cfg.sandboxNetworkMode ∈ ALLOWED_NETWORK_MODES)
    (hport : 1 ≤ cfg.sandboxPreviewPort ∧ cfg.sandboxPreviewPort ≤ 65535)
    (hsw : safeWorkspacePath cfg.workspaceBase pid = .ok hp)
    (hinfo : lookupA st.engine (containerName pid) = some info)
    (hrec : requiresContainerRecreate cfg info = true) :
    _getOrCreateContainer cfg true now ap st pid runtime =
      (.ok (containerName pid),
        { st with
            engine := setA (eraseA st.engine (containerName pid)) (containerName pid)
              (createdInfo cfg ap),
            lastUsed := setA st.lastUsed pid now },
        [Effect.accessSocket, Effect.mkdirp hp, Effect.inspect (containerName pid)] ++
          (if info.running then [Effect.stopC (containerName pid)] else []) ++
          [Effect.removeForce (containerName pid)] ++
          [Effect.createC (containerName pid) runtime, Effect.startC (containerName pid)]) ∧
    lookupA (_getOrCreateContainer cfg true now ap st pid runtime).2.1.engine
      (containerName pid) = some (createdInfo cfg ap) ∧
    (createdInfo cfg ap).networkMode = cfg.sandboxNetworkMode := by
  have hmain : _getOrCreateContainer cfg true now ap st pid runtime =
      (.ok (containerName pid),
        { st with
            engine := setA (eraseA st.engine (containerName pid)) (containerName pid)
              (createdInfo cfg ap),
            lastUsed := setA st.lastUsed pid now },
        [Effect.accessSocket, Effect.mkdirp hp, Effect.inspect (containerName pid)] ++
          (if info.running then [Effect.stopC (containerName pid)] else []) ++
          [Effect.removeForce (containerName pid)] ++
          [Effect.createC (containerName pid) runtime, Effect.startC (containerName pid)]) := by
    simp [_getOrCreateContainer, hpid, hrt, hnm, hport.1, hport.2, hsw, hinfo, hrec,
      List.append_assoc]
  refine ⟨hmain, ?_, rfl⟩
  rw [hmain]
  exact lookupA_setA_self _ _ _

/-- A drifted sandbox: created under network mode `none` while the
configured mode is `bridge`. -/
def infoDriftW : ContainerInfo :=
  { running := true, networkMode := modeNone, env := createdEnv,
    publishedHostPort := some apW }

def lcDriftW : LCState :=
  { engine := [(containerName pidW, infoDriftW)], lastUsed := [], locks := [] }

/-- Witness for C8: the drifted sandbox is recreated and the new sandbox
records the configured `bridge` mode. -/
theorem getOrCreate_recreate_witness :
    requiresContainerRecreate cfgW infoDriftW = true ∧
    infoDriftW.networkMode ≠ cfgW.sandboxNetworkMode ∧
    lookupA (_getOrCreateContainer cfgW true 0 apW lcDriftW pidW rtNode).2.1.engine
        (containerName pidW) = some (createdInfo cfgW apW) ∧
    (createdInfo cfgW apW).networkMode = cfgW.sandboxNetworkMode := by
  refine ⟨by decide, by decide, ?_, ?_⟩
  · exact (getOrCreate_recreates_on_config_drift cfgW 0 apW lcDriftW pidW rtNode infoDriftW
      (baseW ++ '/' :: pidW) (by decide) (by decide) (by decide) (by decide) rfl rfl
      (by decide)).2.1
  · exact (getOrCreate_recreates_on_config_drift cfgW 0 apW lcDriftW pidW rtNode infoDriftW
      (baseW ++ '/' :: pidW) (by decide) (by decide) (by decide) (by decide) rfl rfl
      (by decide)).2.2

/-! ## C3: what the client-disconnect path actually does -/

def regOneW : RegState :=
  { sessionMap := [wsA], projectSessions := [(pidW, [wsA])], userSessions := [(uidW, [wsA])] }

/-- C3 counterexample: the client-disconnect path DOES stop the project's
container.  Destroying the sandbox socket fires its `'close'` event into
the never-removed `closeForShellExit` listener, which issues the stop:
after the disconnect, the running witness sandbox is recorded stopped —
against the claim that the path issues no stop and the sandbox is left
running for reconnection. -/
theorem client_disconnect_stops_container :
    Effect.stopRequest pidW ∈
      (clientDisconnect true none regOneW lcOneW wsA pidW uidW false).2.2.2 ∧
    lookupA (clientDisconnect true none regOneW lcOneW wsA pidW uidW false).2.1.engine
      (containerName pidW) = some { infoRunW with running := false } := by
  constructor
  · decide
  · decide

/-- Changing only `running` never changes the recreate decision: the
check reads the network mode, the environment and the published port. -/
lemma requiresContainerRecreate_ignores_running (cfg : Config) (info : ContainerInfo)
    (b : Bool) :
    requiresContainerRecreate cfg { info with running := b } =
      requiresContainerRecreate cfg info := rfl

lemma getOrCreate_existing_stopped
    (cfg : Config) (now : Nat) (ap : String) (st : LCState) (pid : List Char)
    (runtime : String) (info : ContainerInfo) (hp : List Char)
    (hpid : isUuidV4 pid = true)
    (hrt : runtime ∈ ALLOWED_RUNTIMES)
    (hnm : cfg.sandboxNetworkMode ∈ ALLOWED_NETWORK_MODES)
    (hport : 1 ≤ cfg.sandboxPreviewPort ∧ cfg.sandboxPreviewPort ≤ 65535)
    (hsw : safeWorkspacePath cfg.workspaceBase pid = .ok hp)
    (hinfo : lookupA st.engine (containerName pid) = some info)
    (hrec : requiresContainerRecreate cfg info = false)
    (hstop : info.running = false) :
    _getOrCreateContainer cfg true now ap st pid runtime =
      (.ok (containerName pid),
        { st with engine := setA st.engine (containerName pid) { info with running := true },
                  lastUsed := setA st.lastUsed pid now },
        [Effect.accessSocket, Effect.mkdirp hp, Effect.inspect (containerName pid)] ++
          [Effect.startC (containerName pid)]) := by
  simp [_getOrCreateContainer, hpid, hrt, hnm, hport.1, hport.2, hsw, hinfo, hrec, hstop]

/-- C3 (amended): when the client side disconnects first, the session
tracking state is cleaned up, and — because `socket.destroy()` fires the
sandbox socket's `'close'` event into the still-registered
`closeForShellExit` listener — a stop request is issued for the project's
container, which ends up stopped but not removed.  A subsequent open for
the same project still succeeds without triggering a new creation: the
lifecycle controller finds the existing, configuration-current container
stopped and starts it rather than recreating it. -/
theorem client_disconnect_stops_then_reopen_restarts
    (reg : RegState) (lc : LCState) (wsId wsId2 uid : String) (pid : List Char)
    (cfg : Config) (now : Nat) (ap : String) (runtime : String) (info : ContainerInfo)
    (hp : List Char)
    (hpid : isUuidV4 pid = true)
    (hrt : runtime ∈ ALLOWED_RUNTIMES)
    (hnm : cfg.sandboxNetworkMode ∈ ALLOWED_NETWORK_MODES)
    (hport : 1 ≤ cfg.sandboxPreviewPort ∧ cfg.sandboxPreviewPort ≤ 65535)
    (hsw : safeWorkspacePath cfg.workspaceBase pid = .ok hp)
    (hinfo : lookupA lc.engine (containerName pid) = some info)
    (hrec : requiresContainerRecreate cfg info = false)
    (hsock : wsId ∈ reg.sessionMap)
    (hlock : lookupA lc.locks pid = none)
    (hcapP : (((lookupA (clientDisconnect true none reg lc wsId pid uid false).1.projectSessions
      pid).getD []).length) < MAX_SESSIONS_PER_PROJECT)
    (hcapU : (((lookupA (clientDisconnect true none reg lc wsId pid uid false).1.userSessions
      uid).getD []).length) < MAX_SESSIONS_PER_USER) :
    Effect.stopRequest pid ∈ (clientDisconnect true none reg lc wsId pid uid false).2.2.2 ∧
    lookupA (clientDisconnect true none reg lc wsId pid uid false).2.1.engine
      (containerName pid) = some { info with running := false } ∧
    (openTerminal cfg true now ap (some runtime) true
      (clientDisconnect true none reg lc wsId pid uid false).1
      (clientDisconnect true none reg lc wsId pid uid false).2.1 wsId2 pid (some uid)).1 =
      .registered ∧
    (∀ n r, Effect.createC n r ∉ (openTerminal cfg true now ap (some runtime) true
      (clientDisconnect true none reg lc wsId pid uid false).1
      (clientDisconnect true none reg lc wsId pid uid false).2.1 wsId2 pid (some uid)).2.2.2) ∧
    Effect.startC (containerName pid) ∈ (openTerminal cfg true now ap (some runtime) true
      (clientDisconnect true none reg lc wsId pid uid false).1
      (clientDisconnect true none reg lc wsId pid uid false).2.1 wsId2 pid
        (some uid)).2.2.2 := by
  have hstopEq : (stopContainer true none lc pid).2.1 =
      { lc with engine := setA lc.engine (containerName pid) { info with running := false },
                lastUsed := eraseA lc.lastUsed pid } := by
    simp [stopContainer, hpid, hinfo]
  have hd : clientDisconnect true none reg lc wsId pid uid false =
      ((cleanupSession reg wsId (some pid) (some uid)).1,
       { lc with engine := setA lc.engine (containerName pid) { info with running := false },
                 lastUsed := eraseA lc.lastUsed pid }, true,
       (cleanupSession reg wsId (some pid) (some uid)).2 ++
         [Effect.stopRequest pid, Effect.wsClose 4000 msgShellExited]) := by
    rw [show clientDisconnect true none reg lc wsId pid uid false =
        ((cleanupSession reg wsId (some pid) (some uid)).1,
         (stopContainer true none lc pid).2.1, true,
         (cleanupSession reg wsId (some pid) (some uid)).2 ++
           [Effect.stopRequest pid, Effect.wsClose 4000 msgShellExited]) from by
      simp [clientDisconnect, hsock]]
    rw [hstopEq]
  rw [hd] at hcapP hcapU ⊢
  set lc1 : LCState :=
    { lc with engine := setA lc.engine (containerName pid) { info with running := false },
              lastUsed := eraseA lc.lastUsed pid } with hlc1
  have hinfo1 : lookupA lc1.engine (containerName pid) =
      some { info with running := false } := by
    rw [hlc1]
    exact lookupA_setA_self _ _ _
  have hrec1 : requiresContainerRecreate cfg { info with running := false } = false := by
    rw [requiresContainerRecreate_ignores_running]
    exact hrec
  have hlock1 : lookupA lc1.locks pid = none := hlock
  have hopen : openTerminal cfg true now ap (some runtime) true
      (cleanupSession reg wsId (some pid) (some uid)).1 lc1 wsId2 pid (some uid) =
      (.registered,
        { sessionMap := setAddElem (cleanupSession reg wsId (some pid) (some uid)).1.sessionMap
            wsId2,
          projectSessions := addSession
            (cleanupSession reg wsId (some pid) (some uid)).1.projectSessions pid wsId2,
          userSessions := addSession
            (cleanupSession reg wsId (some pid) (some uid)).1.userSessions uid wsId2 },
        markUsed now
          { lc1 with
              engine := setA lc1.engine (containerName pid) { info with running := true },
              lastUsed := setA lc1.lastUsed pid now } pid,
        Effect.catalogLookup pid ::
          (([Effect.accessSocket, Effect.mkdirp hp, Effect.inspect (containerName pid)] ++
            [Effect.startC (containerName pid)]) ++
            [Effect.inspect (containerName pid), Effect.attachCall])) := by
    simp only [openTerminal]
    rw [if_neg (Nat.not_le_of_lt hcapP), if_neg (Nat.not_le_of_lt hcapU)]
    rw [show lookupA lc1.locks pid = none from hlock1]
    rw [getOrCreate_existing_stopped cfg now ap lc1 pid runtime
      { info with running := false } hp hpid hrt hnm hport hsw hinfo1 hrec1 rfl]
    simp only []
    rw [lookupA_setA_self]
    simp
  refine ⟨by simp, hinfo1, ?_, ?_, ?_⟩
  · rw [hopen]
  · intro n r hmem
    rw [hopen] at hmem
    simp at hmem
  · rw [hopen]
    simp

/-- Witness for C3 (amended): on concrete states, the disconnect stops
the witness sandbox and a re-open registers by starting — not creating —
the container. -/
theorem client_disconnect_reopen_witness :
    Effect.stopRequest pidW ∈
      (clientDisconnect true none regOneW lcOneW wsA pidW uidW false).2.2.2 ∧
    (openTerminal cfgW true 0 apW (some rtNode) true
      (clientDisconnect true none regOneW lcOneW wsA pidW uidW false).1
      (clientDisconnect true none regOneW lcOneW wsA pidW uidW false).2.1 wsB pidW
      (some uidW)).1 = OpenOutcome.registered ∧
    Effect.startC (containerName pidW) ∈ (openTerminal cfgW true 0 apW (some rtNode) true
      (clientDisconnect true none regOneW lcOneW wsA pidW uidW false).1
      (clientDisconnect true none regOneW lcOneW wsA pidW uidW false).2.1 wsB pidW
      (some uidW)).2.2.2 := by
  have h := client_disconnect_stops_then_reopen_restarts regOneW lcOneW wsA wsB uidW pidW cfgW
    0 apW rtNode infoRunW (baseW ++ '/' :: pidW) (by decide) (by decide) (by decide)
    (by decide) rfl rfl (by decide) (by decide) rfl (by decide) (by decide)
  exact ⟨h.1, h.2.2.1, h.2.2.2.2⟩

/-! ## C7: identifier validation and path containment -/

lemma isUuidV4_length {pid : List Char} (h : isUuidV4 pid = true) : pid.length = 36 := by
  unfold isUuidV4 at h
  rw [Bool.and_eq_true] at h
  exact of_decide_eq_true h.1

lemma uuidCharOk_ne_slash {i : Nat} {c : Char} (h : uuidCharOk i c = true) : c ≠ '/' := by
  intro he
  subst he
  unfold uuidCharOk at h
  split at h
  · exact absurd h (by decide)
  · split at h
    · exact absurd h (by decide)
    · split at h
      · exact absurd h (by decide)
      · exact absurd h (by decide)

lemma isUuidV4_no_slash {pid : List Char} (h : isUuidV4 pid = true) : '/' ∉ pid := by
  intro hmem
  obtain ⟨n, hget⟩ := List.mem_iff_get.mp hmem
  have hlen := isUuidV4_length h
  unfold isUuidV4 at h
  rw [Bool.and_eq_true] at h
  have hall := List.all_eq_true.mp h.2 n.1 (List.mem_range.mpr (hlen ▸ n.2))
  rw [List.get?_eq_get n.2] at hall
  simp only [Fin.eta] at hall
  rw [hget] at hall
  exact uuidCharOk_ne_slash hall rfl

/-- A path segment that `normalize` keeps verbatim. -/
def goodSeg (s : List Char) : Prop :=
  s ≠ [] ∧ s ≠ ['.'] ∧ s ≠ ['.', '.'] ∧ '/' ∉ s

instance (s : List Char) : Decidable (goodSeg s) := by
  unfold goodSeg
  infer_instance

/-- The workspace root written as a normal absolute path: a leading slash
followed by slash-free, non-dot segments. -/
def goodBase (base : List Char) (segs : List (List Char)) : Prop :=
  segs ≠ [] ∧ (∀ s ∈ segs, goodSeg s) ∧ base = '/' :: joinSegs segs

instance (base : List Char) (segs : List (List Char)) : Decidable (goodBase base segs) := by
  unfold goodBase
  infer_instance

lemma isUuidV4_goodSeg {pid : List Char} (h : isUuidV4 pid = true) : goodSeg pid := by
  have hlen := isUuidV4_length h
  refine ⟨?_, ?_, ?_, isUuidV4_no_slash h⟩
  · intro he
    rw [he] at hlen
    cases hlen
  · intro he
    rw [he] at hlen
    cases hlen
  · intro he
    rw [he] at hlen
    cases hlen

lemma splitSlash_cons (c : Char) (rest : List Char) :
    splitSlash (c :: rest) =
      if c = '/' then [] :: splitSlash rest
      else
        match splitSlash rest with
        | [] => [[c]]
        | s :: ss => (c :: s) :: ss := rfl

lemma splitSlash_ne_nil (l : List Char) : splitSlash l ≠ [] := by
  induction l with
  | nil => simp [splitSlash]
  | cons c rest ih =>
    rw [splitSlash_cons]
    by_cases h : c = '/'
    · simp [h]
    · rw [if_neg h]
      rcases he : splitSlash rest with _ | ⟨s, ss⟩

      · exact absurd he ih
      · simp

lemma splitSlash_append (a b : List Char) :
    splitSlash (a ++ '/' :: b) = splitSlash a ++ splitSlash b := by
  induction a with
  | nil =>
    show splitSlash ('/' :: b) = splitSlash ([] : List Char) ++ splitSlash b
    rw [splitSlash_cons, if_pos rfl]
    rfl
  | cons c rest ih =>
    show splitSlash (c :: (rest ++ '/' :: b)) = splitSlash (c :: rest) ++ splitSlash b
    rw [splitSlash_cons, splitSlash_cons c rest]
    by_cases h : c = '/'
    · rw [if_pos h, if_pos h, ih]
      rfl
    · rw [if_neg h, if_neg h, ih]
      rcases he : splitSlash rest with _ | ⟨s, ss⟩
      · exact absurd he (splitSlash_ne_nil rest)
      · rfl

lemma splitSlash_no_sep {l : List Char} (h : '/' ∉ l) : splitSlash l = [l] := by
  induction l with
  | nil => rfl
  | cons c rest ih =>
    have hc : ¬(c = '/') := by
      intro he
      rw [he] at h
      exact h (List.mem_cons_self _ _)
    rw [splitSlash_cons, if_neg hc, ih (fun hm => h (List.mem_cons_of_mem c hm))]

lemma splitSlash_joinSegs {segs : List (List Char)} (hne : segs ≠ [])
    (h : ∀ s ∈ segs, '/' ∉ s) : splitSlash (joinSegs segs) = segs := by
  induction segs with
  | nil => exact absurd rfl hne
  | cons s rest ih =>
    cases rest with
    | nil =>
      show splitSlash (joinSegs [s]) = [s]
      exact splitSlash_no_sep (h s (List.mem_cons_self s []))
    | cons s2 rest2 =>
      show splitSlash (s ++ '/' :: joinSegs (s2 :: rest2)) = s :: s2 :: rest2
      rw [splitSlash_append, splitSlash_no_sep (h s (by simp)),
        ih (by simp) (fun x hx => h x (by simp [hx]))]
      rfl

lemma normStack_cons (acc : List (List Char)) (seg : List Char) (rest : List (List Char)) :
    normStack acc (seg :: rest) =
      if seg = [] ∨ seg = ['.'] then normStack acc rest
      else if seg = ['.', '.'] then normStack acc.dropLast rest
      else normStack (acc ++ [seg]) rest := rfl

lemma normStack_good {segs : List (List Char)} (h : ∀ s ∈ segs, goodSeg s) :
    ∀ acc, normStack acc segs = acc ++ segs := by
  induction segs with
  | nil =>
    intro acc
    simp [normStack]
  | cons s rest ih =>
    intro acc
    obtain ⟨h1, h2, h3, _⟩ := h s (by simp)
    rw [normStack_cons, if_neg (not_or.mpr ⟨h1, h2⟩), if_neg h3,
      ih (fun x hx => h x (by simp [hx])) (acc ++ [s])]
    simp

lemma joinSegs_append_single {segs : List (List Char)} (x : List Char) (hne : segs ≠ []) :
    joinSegs (segs ++ [x]) = joinSegs segs ++ '/' :: x := by
  induction segs with
  | nil => exact absurd rfl hne
  | cons s rest ih =>
    cases rest with
    | nil => rfl
    | cons s2 r2 =>
      show s ++ '/' :: joinSegs ((s2 :: r2) ++ [x]) =
        (s ++ '/' :: joinSegs (s2 :: r2)) ++ '/' :: x
      rw [ih (by simp)]
      simp

lemma safeWorkspacePath_good {base : List Char} {segs : List (List Char)} {pid : List Char}
    (hb : goodBase base segs) (hpid : isUuidV4 pid = true) :
    safeWorkspacePath base pid = .ok (base ++ '/' :: pid) := by
  obtain ⟨hne, hgood, hbase⟩ := hb
  have hgpid := isUuidV4_goodSeg hpid
  have hres : normalizeAbs (base ++ '/' :: pid) = base ++ '/' :: pid := by
    subst hbase
    show normalizeAbs ('/' :: (joinSegs segs ++ '/' :: pid)) = _
    unfold normalizeAbs
    rw [show splitSlash ('/' :: (joinSegs segs ++ '/' :: pid)) =
      [] :: splitSlash (joinSegs segs ++ '/' :: pid) from by rw [splitSlash_cons, if_pos rfl]]
    rw [splitSlash_append,
      splitSlash_joinSegs hne (fun s hs => (hgood s hs).2.2.2),
      splitSlash_no_sep hgpid.2.2.2]
    rw [show normStack [] ([] :: (segs ++ [pid])) = normStack [] (segs ++ [pid]) from by
      rw [normStack_cons, if_pos (Or.inl rfl)]]
    rw [@normStack_good (segs ++ [pid])
      (fun s hs => by
        rcases List.mem_append.mp hs with hs' | hs'
        · exact hgood s hs'
        · rw [List.mem_singleton.mp hs']
          exact hgpid) []]
    rw [List.nil_append, joinSegs_append_single pid hne]
    rfl
  have hpref : (base ++ ['/']).isPrefixOf (base ++ '/' :: pid) = true := by
    rw [List.isPrefixOf_iff_prefix]
    rw [show base ++ '/' :: pid = (base ++ ['/']) ++ pid from by simp]
    exact List.prefix_append _ _
  unfold safeWorkspacePath
  rw [hpid]
  simp only [if_true]
  rw [hres, hpref]
  simp

/-- C7 counterexample: `markUsed` — one of the claim's listed entry points
— performs no identifier validation: a non-UUID identifier is accepted
and recorded in the idle-tracking table rather than rejected. -/
theorem markUsed_accepts_invalid_id :
    isUuidV4 badPidW = false ∧
    (markUsed 0 lcEmptyW badPidW).lastUsed = [(badPidW, 0)] := by
  constructor
  · decide
  · rfl

/-- C7 (amended): the five entry points that reach the filesystem or the
engine — getOrCreateContainer (via `_getOrCreateContainer`),
stopContainer, removeContainer, getStatus, getPreview — all reject a
non-UUID project identifier before any filesystem or engine effect
(empty effect trace, state unchanged); `markUsed` performs no validation
but also makes no filesystem or engine call (it only writes the in-memory
table).  Every workspace path derived from an accepted identifier
resolves to `base/pid`, strictly underneath the fixed workspace root. -/
theorem lifecycle_validation_and_path_containment :
    (∀ cfg socketOk now ap st pid runtime, isUuidV4 pid = false →
      _getOrCreateContainer cfg socketOk now ap st pid runtime =
        (.error .invalidProjectId, st, [])) ∧
    (∀ socketOk fault st pid, isUuidV4 pid = false →
      stopContainer socketOk fault st pid = (.error .invalidProjectId, st, [])) ∧
    (∀ socketOk fault st pid, isUuidV4 pid = false →
      removeContainer socketOk fault st pid = (.error .invalidProjectId, st, [])) ∧
    (∀ socketOk st pid, isUuidV4 pid = false →
      getStatus socketOk st pid = (.error .invalidProjectId, [])) ∧
    (∀ cfg socketOk st pid, isUuidV4 pid = false →
      getPreview cfg socketOk st pid = (.error .invalidProjectId, [])) ∧
    (∀ base segs pid, goodBase base segs → isUuidV4 pid = true →
      safeWorkspacePath base pid = .ok (base ++ '/' :: pid) ∧
      (base ++ ['/']).isPrefixOf (base ++ '/' :: pid) = true) := by
  refine ⟨?_, ?_, ?_, ?_, ?_, ?_⟩
  · intro cfg socketOk now ap st pid runtime h
    simp [_getOrCreateContainer, h]
  · intro socketOk fault st pid h
    simp [stopContainer, h]
  · intro socketOk fault st pid h
    simp [removeContainer, h]
  · intro socketOk st pid h
    simp [getStatus, h]
  · intro cfg socketOk st pid h
    simp [getPreview, h]
  · intro base segs pid hb hpid
    refine ⟨safeWorkspacePath_good hb hpid, ?_⟩
    rw [List.isPrefixOf_iff_prefix]
    rw [show base ++ '/' :: pid = (base ++ ['/']) ++ pid from by simp]
    exact List.prefix_append _ _

/-- Witness for C7 (amended): the invalid identifier is rejected by each
validating entry point with no effects, and the witness base/identifier
resolve under the workspace root. -/
theorem lifecycle_validation_witness :
    isUuidV4 badPidW = false ∧
    stopContainer true none lcEmptyW badPidW = (.error .invalidProjectId, lcEmptyW, []) ∧
    getStatus true lcEmptyW badPidW = (.error .invalidProjectId, []) ∧
    safeWorkspacePath baseW pidW = .ok (baseW ++ '/' :: pidW) := by
  refine ⟨by decide, ?_, ?_, ?_⟩
  · exact lifecycle_validation_and_path_containment.2.1 true none lcEmptyW badPidW (by decide)
  · exact lifecycle_validation_and_path_containment.2.2.2.1 true lcEmptyW badPidW (by decide)
  · exact (lifecycle_validation_and_path_containment.2.2.2.2.2 baseW segsW pidW
      (by decide) (by decide)).1

end CloudIt
